import Mathlib

/-!
Shallow embedding of the BookFinder client (src/src/App.jsx) and proofs of
the specification claims about its Query Builder, Cover Resolver and the
search-controller hook.

JavaScript strings are modelled as Lean strings; JavaScript values that may
be `undefined` are modelled as `Option`; JavaScript truthiness is made
explicit (`""` and `0` are falsy).  The React hook `useOpenLibrarySearch` is
modelled as a small-step state machine over an explicit `HookState`, driven
by events (parameter updates, debounce-timer firings, fetch responses).
-/

namespace BookFinder

/-- Character class matched by the JavaScript `String.prototype.trim`
(ECMAScript WhiteSpace plus LineTerminator). -/
def jsWhitespaceChar (c : Char) : Bool :=
  let n := c.toNat
  n == 0x9 || n == 0xA || n == 0xB || n == 0xC || n == 0xD || n == 0x20 ||
  n == 0xA0 || n == 0x1680 || (0x2000 ≤ n && n ≤ 0x200A) ||
  n == 0x2028 || n == 0x2029 || n == 0x202F || n == 0x205F ||
  n == 0x3000 || n == 0xFEFF

/-- JavaScript `s.trim()`: strip leading and trailing whitespace. -/
def jsTrim (s : String) : String :=
  ⟨List.rdropWhile jsWhitespaceChar (List.dropWhile jsWhitespaceChar s.data)⟩

/-- Uppercase hexadecimal digit for a value below 16. -/
def hexDigit (n : Nat) : Char :=
  if n < 10 then Char.ofNat (0x30 + n) else Char.ofNat (0x41 + (n - 10))

/-- Percent-escape of one byte: the three characters of such a form as %41. -/
def percentByte (b : Nat) : List Char :=
  ['%', hexDigit (b / 16 % 16), hexDigit (b % 16)]

/-- UTF-8 byte sequence of a Unicode code point. -/
def utf8Bytes (n : Nat) : List Nat :=
  if n < 0x80 then [n]
  else if n < 0x800 then [0xC0 + n / 64, 0x80 + n % 64]
  else if n < 0x10000 then
    [0xE0 + n / 4096, 0x80 + n / 64 % 64, 0x80 + n % 64]
  else
    [0xF0 + n / 262144, 0x80 + n / 4096 % 64, 0x80 + n / 64 % 64, 0x80 + n % 64]

/-- ASCII letters and digits. -/
def asciiAlnum (c : Char) : Bool :=
  (0x41 ≤ c.toNat && c.toNat ≤ 0x5A) || (0x61 ≤ c.toNat && c.toNat ≤ 0x7A) ||
  (0x30 ≤ c.toNat && c.toNat ≤ 0x39)

/-- Characters left unescaped by the JavaScript `encodeURIComponent`. -/
def uriUnreservedChar (c : Char) : Bool :=
  asciiAlnum c ||
  c == '-' || c == '_' || c == '.' || c == '!' || c == '~' || c == '*' ||
  c.toNat == 39 || c == '(' || c == ')'

/-- Encoding of a single character under `encodeURIComponent`. -/
def encodeURIChar (c : Char) : List Char :=
  if uriUnreservedChar c then [c] else (utf8Bytes c.toNat).flatMap percentByte

/-- The JavaScript `encodeURIComponent`. -/
def encodeURIComponent (s : String) : String :=
  ⟨s.data.flatMap encodeURIChar⟩

/-- Characters left unescaped by the application/x-www-form-urlencoded
serializer used by `URLSearchParams.toString`. -/
def formUnreservedChar (c : Char) : Bool :=
  asciiAlnum c || c == '*' || c == '-' || c == '.' || c == '_'

/-- Encoding of a single character under the form-urlencoded serializer:
space becomes a plus sign, unreserved characters pass through, everything
else is percent-escaped bytewise. -/
def formEncodeChar (c : Char) : List Char :=
  if c == ' ' then ['+']
  else if formUnreservedChar c then [c]
  else (utf8Bytes c.toNat).flatMap percentByte

/-- Serialization of one string by `URLSearchParams.toString`. -/
def formEncode (s : String) : String :=
  ⟨s.data.flatMap formEncodeChar⟩

/-- JavaScript `t.replaceAll(a double quote, a backslash-escaped double
quote)` as used by `esc`. -/
def escapeQuotes (s : String) : String :=
  ⟨s.data.flatMap fun c => if c == '"' then ['\\', '"'] else [c]⟩

/-- Search endpoint (`BASE` in App.jsx). -/
def BASE : String := "https://openlibrary.org/search.json"

/-- Truthiness of an optional JavaScript string: `undefined` and the empty
string are falsy. -/
def jsTruthyStr (v : Option String) : Bool :=
  match v with
  | none => false
  | some s => !(s == "")

/-- Truthiness of an optional JavaScript number: `undefined` and 0 are falsy. -/
def jsTruthyInt (v : Option Int) : Bool :=
  match v with
  | none => false
  | some n => !(n == 0)

/-- The function `coverUrl(cover_i, size)` of App.jsx: a ternary on the
truthiness of `cover_i`. -/
def coverUrl (cover_i : Option Int) (size : String) : String :=
  if jsTruthyInt cover_i then
    "https://covers.openlibrary.org/b/id/" ++ toString (cover_i.getD 0) ++
      "-" ++ size ++ ".jpg"
  else
    "https://covers.openlibrary.org/b/id/0-" ++ size ++ ".jpg"

/-- The function `esc(v)` of App.jsx: coerce a missing value to the empty
string, trim, then either wrap in double quotes (escaping inner double
quotes) when the trimmed value contains a space, or percent-encode it. -/
def esc (v : Option String) : String :=
  let t := jsTrim (v.getD "")
  if t.data.contains ' ' then "\"" ++ escapeQuotes t ++ "\""
  else encodeURIComponent t

/-- Request parameters held by the hook (the object `p` that `buildUrl`
receives); every field is optional, as in JavaScript. -/
structure Params where
  q : Option String := none
  title : Option String := none
  author : Option String := none
  subject : Option String := none
  language : Option String := none
  isbn : Option String := none
  yearStart : Option Int := none
  yearEnd : Option Int := none
  page : Option Nat := none
  limit : Option Nat := none
  sort : Option String := none
deriving Repr, DecidableEq

/-- The year-range clause of `buildUrl`: open ends are rendered as a star. -/
def yearClause (p : Params) : String :=
  let s := if jsTruthyInt p.yearStart then toString (p.yearStart.getD 0) else "*"
  let e := if jsTruthyInt p.yearEnd then toString (p.yearEnd.getD 0) else "*"
  "first_publish_year:[" ++ s ++ " TO " ++ e ++ "]"

/-- The list `parts` built by `buildUrl`, in source order: title, author,
subject, language, year range, free text. -/
def clauses (p : Params) : List String :=
  (if jsTruthyStr p.title then ["title:" ++ esc p.title] else []) ++
  (if jsTruthyStr p.author then ["author:" ++ esc p.author] else []) ++
  (if jsTruthyStr p.subject then ["subject:" ++ esc p.subject] else []) ++
  (if jsTruthyStr p.language then
    ["language:" ++ encodeURIComponent (p.language.getD "")] else []) ++
  (if jsTruthyInt p.yearStart || jsTruthyInt p.yearEnd then [yearClause p] else []) ++
  (if jsTruthyStr p.q then [p.q.getD ""] else [])

/-- Fixed `fields` value requested by `buildUrl`. -/
def fieldsValue : String :=
  "key,title,author_name,first_publish_year,subject,cover_i,ia"

/-- Key-value pairs inserted into the `URLSearchParams`, in insertion
order: `q` (only when some clause exists), `page`, `limit`, `sort` (only
when truthy and different from relevance), `fields`. -/
def queryPairs (p : Params) : List (String × String) :=
  (if clauses p ≠ [] then [("q", String.intercalate " " (clauses p))] else []) ++
  [("page", toString (if jsTruthyInt (p.page.map Int.ofNat) then p.page.getD 1 else 1)),
   ("limit", toString (if jsTruthyInt (p.limit.map Int.ofNat) then p.limit.getD 24 else 24))] ++
  (if jsTruthyStr p.sort && !(p.sort.getD "" == "relevance") then
    [("sort", p.sort.getD "")] else []) ++
  [("fields", fieldsValue)]

/-- Serialization of `URLSearchParams.toString()`: pairs joined by
ampersands, keys and values form-urlencoded. -/
def serializePairs (l : List (String × String)) : String :=
  String.intercalate "&" (l.map fun kv => formEncode kv.1 ++ "=" ++ formEncode kv.2)

/-- The function `buildUrl(p)` of App.jsx. -/
def buildUrl (p : Params) : String :=
  BASE ++ "?" ++ serializePairs (queryPairs p)

/-- Status values of the hook: idle, loading, success, error, empty. -/
inductive Status where
  | idle
  | loading
  | success
  | error
  | empty
deriving Repr, DecidableEq

/-- One search result record, with the fields requested via `fields`. -/
structure OLDoc where
  key : Option String := none
  title : Option String := none
  author_name : Option (List String) := none
  first_publish_year : Option Int := none
  subject : Option (List String) := none
  cover_i : Option Int := none
  ia : Option (List String) := none
deriving Repr, DecidableEq

/-- Parsed response body of the search endpoint. -/
structure OLJson where
  numFound : Nat := 0
  docs : Option (List OLDoc) := none
deriving Repr, DecidableEq

/-- The condition the hook tests with the optional-chaining expression on
the length of the docs array: the array is absent or has length zero. -/
def docsMissingOrEmpty (j : OLJson) : Bool :=
  match j.docs with
  | none => true
  | some l => l.isEmpty

/-- Outcome of one fetch, as distinguished by the hook: a parsed body, a
non-success HTTP status (the `res.ok` test), a rejected network promise, or
a body that fails JSON parsing.  Abortion is not an outcome; it is modelled
by the aborted set of the state. -/
inductive Outcome where
  | ok (j : OLJson)
  | httpFail (code : Nat)
  | netFail (msg : String)
  | parseFail (msg : String)
deriving Repr, DecidableEq

/-- A partial parameter object, as passed to `update`: an outer `none`
means the key is absent from the object, `some v` that the key is present
with value `v` (where the inner `none` is the JavaScript `undefined`). -/
structure Partial where
  q : Option (Option String) := none
  title : Option (Option String) := none
  author : Option (Option String) := none
  subject : Option (Option String) := none
  language : Option (Option String) := none
  isbn : Option (Option String) := none
  yearStart : Option (Option Int) := none
  yearEnd : Option (Option Int) := none
  page : Option (Option Nat) := none
  limit : Option (Option Nat) := none
  sort : Option (Option String) := none
deriving Repr, DecidableEq

/-- Spread semantics for one field: a key present in the newer object
overrides, an absent key keeps the old value. -/
def mergeField (old : Option α) (new : Option (Option α)) : Option α :=
  match new with
  | none => old
  | some v => v

/-- The function `update(next)` of the hook: spread the current params,
spread the partial over them, then set page to the partial page coalesced
with 1 (the nullish-coalescing operator). -/
def update (p : Params) (next : Partial) : Params :=
  { q := mergeField p.q next.q
    title := mergeField p.title next.title
    author := mergeField p.author next.author
    subject := mergeField p.subject next.subject
    language := mergeField p.language next.language
    isbn := mergeField p.isbn next.isbn
    yearStart := mergeField p.yearStart next.yearStart
    yearEnd := mergeField p.yearEnd next.yearEnd
    page := some ((next.page.getD none).getD 1)
    limit := mergeField p.limit next.limit
    sort := mergeField p.sort next.sort }

/-- The `hasQuery` disjunction of the hook effect: some query-bearing field
(free text, title, author, subject or isbn) is truthy. -/
def hasQuery (p : Params) : Bool :=
  jsTruthyStr p.q || jsTruthyStr p.title || jsTruthyStr p.author ||
  jsTruthyStr p.subject || jsTruthyStr p.isbn

/-- State of one `useOpenLibrarySearch` instance.  AbortController objects
are identified by the natural number assigned at their creation:
`abortRef` is the id held by the ref, `aborted` the ids whose `abort()`
has been called, `pendingTimer` the id whose debounce timeout is scheduled,
`inFlight` the ids whose fetch has started and not yet settled. -/
structure HookState where
  params : Params
  status : Status := .idle
  data : Option OLJson := none
  error : Option String := none
  abortRef : Option Nat := none
  aborted : List Nat := []
  pendingTimer : Option Nat := none
  inFlight : List Nat := []
  nextId : Nat := 0
deriving Repr, DecidableEq

/-- Abort of the controller currently held by the ref (the statement
guarded by the truthiness test on the ref). -/
def abortCurrent (s : HookState) : HookState :=
  match s.abortRef with
  | some g => { s with aborted := g :: s.aborted }
  | none => s

/-- One run of the hook effect body (after the cleanup of the previous run
cleared its debounce timer; both branches leave no timer scheduled except
the fresh one).  Without a query it resets to idle and clears data and
error — note that it returns before touching the abort ref, so nothing is
aborted on this path.  With a query it aborts the previous controller,
installs a fresh one, enters loading, clears the error and schedules the
debounce timer for the fresh request. -/
def runEffect (s : HookState) : HookState :=
  if hasQuery s.params then
    let t := abortCurrent s
    { t with abortRef := some t.nextId, status := .loading, error := none,
             pendingTimer := some t.nextId, nextId := t.nextId + 1 }
  else
    { s with status := .idle, data := none, error := none, pendingTimer := none }

/-- Application of a settled (non-aborted) fetch outcome to the state: the
body of the async callback after `fetch` resolves, including its catch
clause. -/
def applyOutcome (o : Outcome) (s : HookState) : HookState :=
  match o with
  | .ok j =>
    if docsMissingOrEmpty j then
      { s with data := some { j with docs := some [] }, status := .empty }
    else
      { s with data := some j, status := .success }
  | .httpFail c =>
    { s with error := some ("Request failed: " ++ toString c), status := .error }
  | .netFail m =>
    { s with error := some (if m == "" then "Network error" else m), status := .error }
  | .parseFail m =>
    { s with error := some (if m == "" then "Network error" else m), status := .error }

/-- Events driving the hook: a call to `update`, the firing of the
scheduled debounce timer, and the settling of the fetch of request `g`. -/
inductive Event where
  | updateEv (next : Partial)
  | timerFireEv
  | responseEv (g : Nat) (o : Outcome)
deriving Repr, DecidableEq

/-- Small-step semantics of the hook.  An update merges the partial; the
effect re-runs exactly when the memoized URL string changes.  A timer
firing starts the fetch of the scheduled request.  A settling response is
applied unless its controller was aborted, in which case the promise
rejects with AbortError and the catch clause returns without touching the
state. -/
def step (s : HookState) : Event → HookState
  | .updateEv next =>
    let p := update s.params next
    if buildUrl p == buildUrl s.params then { s with params := p }
    else runEffect { s with params := p }
  | .timerFireEv =>
    match s.pendingTimer with
    | some g => { s with pendingTimer := none, inFlight := g :: s.inFlight }
    | none => s
  | .responseEv g o =>
    if s.inFlight.contains g then
      if s.aborted.contains g then { s with inFlight := s.inFlight.erase g }
      else applyOutcome o { s with inFlight := s.inFlight.erase g }
    else s

/-- Iterated steps over an event list. -/
def run (s : HookState) (evs : List Event) : HookState :=
  evs.foldl step s

/-- The hook params before the first render: defaults spread under the
constructor argument. -/
def initParams (initial : Partial) : Params :=
  { q := mergeField none initial.q
    title := mergeField none initial.title
    author := mergeField none initial.author
    subject := mergeField none initial.subject
    language := mergeField none initial.language
    isbn := mergeField none initial.isbn
    yearStart := mergeField none initial.yearStart
    yearEnd := mergeField none initial.yearEnd
    page := mergeField (some 1) initial.page
    limit := mergeField (some 24) initial.limit
    sort := mergeField (some "relevance") initial.sort }

/-- Hook state after mounting: initial render followed by the first effect
run. -/
def mountState (initial : Partial) : HookState :=
  runEffect { params := initParams initial }

/-- The user-visible part of the hook state. -/
def stateTriple (s : HookState) : Status × Option OLJson × Option String :=
  (s.status, s.data, s.error)

/-- Page size constant of the Results component. -/
def LIMIT : Nat := 24

/-- The total the Results component reads from the data (the
optional-chained `numFound` coalesced with 0). -/
def totalOf (data : Option OLJson) : Nat :=
  match data with
  | none => 0
  | some j => j.numFound

/-- Disabled condition of the Next button in the Results component: the
current page times the page size reaches the capped total. -/
def nextDisabled (data : Option OLJson) (page : Nat) : Bool :=
  decide (page * LIMIT ≥ min (totalOf data) 1000)

/-- Clause list written after the specification text: the optional clauses
in the fixed order title, author, subject, language, year range, free
text; absent clauses are dropped. -/
def specClauseList (p : Params) : List (Option String) :=
  [if jsTruthyStr p.title then some ("title:" ++ esc p.title) else none,
   if jsTruthyStr p.author then some ("author:" ++ esc p.author) else none,
   if jsTruthyStr p.subject then some ("subject:" ++ esc p.subject) else none,
   if jsTruthyStr p.language then
     some ("language:" ++ encodeURIComponent (p.language.getD "")) else none,
   if jsTruthyInt p.yearStart || jsTruthyInt p.yearEnd then
     some (yearClause p) else none,
   if jsTruthyStr p.q then some (p.q.getD "") else none]

/-- URL written after the specification text: the ordered clauses joined
into a `q` parameter, followed by the page, limit, sort and fields
parameters. -/
def buildUrlSpec (p : Params) : String :=
  let cs := (specClauseList p).filterMap id
  BASE ++ "?" ++ serializePairs (
    (if cs ≠ [] then [("q", String.intercalate " " cs)] else []) ++
    [("page", toString (if jsTruthyInt (p.page.map Int.ofNat) then p.page.getD 1 else 1)),
     ("limit", toString (if jsTruthyInt (p.limit.map Int.ofNat) then p.limit.getD 24 else 24))] ++
    (if jsTruthyStr p.sort && !(p.sort.getD "" == "relevance") then
      [("sort", p.sort.getD "")] else []) ++
    [("fields", fieldsValue)])

/-- Bound of an optional request id by a fresh-id counter. -/
def optLt (o : Option Nat) (n : Nat) : Bool :=
  match o with
  | some g => g < n
  | none => true

/-- Well-formedness of a hook state: every request id the state knows is
below the fresh-id counter.  It holds at mount and is preserved by steps;
it rules out junk states in which a future id is already aborted. -/
abbrev WF (s : HookState) : Prop :=
  (∀ g ∈ s.aborted, g < s.nextId) ∧ (∀ g ∈ s.inFlight, g < s.nextId) ∧
  optLt s.abortRef s.nextId = true ∧ optLt s.pendingTimer s.nextId = true

/-- The constructor argument App passes to the hook. -/
def appInitial : Partial :=
  { limit := some (some 24), sort := some (some "relevance") }

/-- Hook state of the mounted App. -/
def appMount : HookState := mountState appInitial

/-- A first parameter update (search for a title). -/
def updA : Partial := { title := some (some "dune") }

/-- A second parameter update issued while the first is pending. -/
def updB : Partial := { title := some (some "hobbit") }

/-- The update `onSearch` produces when every filter field is empty. -/
def updEmpty : Partial :=
  { q := some (some ""), title := some (some ""), author := some (some ""),
    subject := some (some ""), language := some none, yearStart := some none,
    yearEnd := some none, sort := some (some "relevance") }

/-- A response body with one record. -/
def jsonA : OLJson := { numFound := 7, docs := some [{ key := some "/works/A" }] }

/-- A second response body with one record. -/
def jsonB : OLJson := { numFound := 3, docs := some [{ key := some "/works/B" }] }

/-- A response body with zero records. -/
def jsonEmpty : OLJson := { numFound := 0, docs := some [] }

/-- A loading hook state with request 0 in flight and not aborted. -/
def loadingState : HookState :=
  { params := initParams updA, status := .loading, inFlight := [0],
    abortRef := some 0, nextId := 1 }

/-- A hook state whose request 0 has been aborted while in flight. -/
def abortedState : HookState :=
  { params := initParams updA, status := .loading, inFlight := [0],
    aborted := [0], abortRef := some 1, nextId := 2 }

/-- A response body sitting exactly at the pagination cap. -/
def jsonCap : OLJson := { numFound := 1000 }

/- ------------------------------------------------------------------ -/
/- Helper lemmas shared by the claim theorems.                         -/
/- ------------------------------------------------------------------ -/

theorem jsTrim_idem (s : String) : jsTrim (jsTrim s) = jsTrim s := by
  have key : ∀ l : List Char,
      List.dropWhile jsWhitespaceChar
        (List.rdropWhile jsWhitespaceChar (List.dropWhile jsWhitespaceChar l)) =
      List.rdropWhile jsWhitespaceChar (List.dropWhile jsWhitespaceChar l) := by
    intro l
    rw [List.dropWhile_eq_self_iff]
    intro hl
    have hpre :
        List.rdropWhile jsWhitespaceChar (List.dropWhile jsWhitespaceChar l) <+:
          List.dropWhile jsWhitespaceChar l :=
      List.rdropWhile_prefix _ _
    have h0 : 0 < (List.dropWhile jsWhitespaceChar l).length :=
      lt_of_lt_of_le hl hpre.length_le
    rw [List.IsPrefix.get_eq hpre hl]
    exact List.dropWhile_get_zero_not jsWhitespaceChar l h0
  unfold jsTrim
  congr 1
  show List.rdropWhile jsWhitespaceChar (List.dropWhile jsWhitespaceChar
      (List.rdropWhile jsWhitespaceChar (List.dropWhile jsWhitespaceChar s.data))) =
    List.rdropWhile jsWhitespaceChar (List.dropWhile jsWhitespaceChar s.data)
  rw [key s.data]
  exact List.rdropWhile_idempotent _ _

theorem hexDigit_lt16_ne_quote : ∀ m, m < 16 → hexDigit m ≠ '"' := by decide

theorem encodeURIChar_no_quote (c : Char) : '"' ∉ encodeURIChar c := by
  unfold encodeURIChar
  split
  · intro hm
    rename_i hres
    rw [List.mem_singleton] at hm
    rw [← hm] at hres
    exact absurd hres (by decide)
  · intro hm
    rw [List.mem_flatMap] at hm
    obtain ⟨b, _, hmem⟩ := hm
    unfold percentByte at hmem
    simp only [List.mem_cons, List.not_mem_nil, or_false] at hmem
    rcases hmem with h | h | h
    · exact absurd h (by decide)
    · exact hexDigit_lt16_ne_quote _ (Nat.mod_lt _ (by norm_num)) h.symm
    · exact hexDigit_lt16_ne_quote _ (Nat.mod_lt _ (by norm_num)) h.symm

theorem encodeURIComponent_no_quote (s : String) :
    ∀ c ∈ (encodeURIComponent s).data, c ≠ '"' := by
  intro c hc
  unfold encodeURIComponent at hc
  rw [show (String.mk (s.data.flatMap encodeURIChar)).data
        = s.data.flatMap encodeURIChar from rfl, List.mem_flatMap] at hc
  obtain ⟨d, _, h⟩ := hc
  intro he
  rw [he] at h
  exact encodeURIChar_no_quote d h

/- ------------------------------------------------------------------ -/
/- Claim theorems.                                                     -/
/- ------------------------------------------------------------------ -/

/-- C3, counterexample.  The claim quantifies over values containing
whitespace, but `esc` tests only for the space character: the value with
an embedded tab contains whitespace yet is percent-encoded, not wrapped in
double quotes. -/
theorem esc_whitespace_counterexample :
    jsWhitespaceChar '\t' = true ∧ '\t' ∈ ("a\tb").data ∧
    esc (some "a\tb") = "a%09b" ∧
    esc (some "a\tb") ≠ "\"" ++ escapeQuotes (jsTrim "a\tb") ++ "\"" := by
  decide

/-- C3 (amended): quoting is decided by a space character (U+0020) in the
trimmed value, not by arbitrary whitespace.  When the trimmed value
contains a space, the output is the trimmed value wrapped in double quotes
with internal double quotes backslash-escaped; otherwise the output is the
trimmed value percent-encoded, and it contains no double-quote character
at all. -/
theorem esc_space_quoting (v : Option String) :
    ((jsTrim (v.getD "")).data.contains ' ' = true →
      esc v = "\"" ++ escapeQuotes (jsTrim (v.getD "")) ++ "\"") ∧
    ((jsTrim (v.getD "")).data.contains ' ' = false →
      esc v = encodeURIComponent (jsTrim (v.getD "")) ∧
      ∀ c ∈ (esc v).data, c ≠ '"') := by
  constructor
  · intro h
    simp only [esc]
    rw [h]
    simp
  · intro h
    have he : esc v = encodeURIComponent (jsTrim (v.getD "")) := by
      simp only [esc]
      rw [h]
      simp
    exact ⟨he, by rw [he]; exact encodeURIComponent_no_quote _⟩

/-- Witness for C3: a value with a space is quoted, a value without one is
emitted bare. -/
theorem esc_space_quoting_witness :
    esc (some "a b") = "\"a b\"" ∧ esc (some "ab") = "ab" := by
  have h1 := (esc_space_quoting (some "a b")).1 (by decide)
  have h2 := ((esc_space_quoting (some "ab")).2 (by decide)).1
  exact ⟨by rw [h1]; decide, by rw [h2]; decide⟩

/-- C9, counterexample.  The claim sends every non-positive identifier to
the sentinel URL, but `coverUrl` tests JavaScript truthiness, under which
a negative identifier is truthy: -1 produces a URL built from -1, not the
sentinel. -/
theorem coverUrl_nonpositive_counterexample :
    (-1 : Int) < 0 ∧
    coverUrl (some (-1)) "M" = "https://covers.openlibrary.org/b/id/-1-M.jpg" ∧
    coverUrl (some (-1)) "M" ≠ "https://covers.openlibrary.org/b/id/0-M.jpg" := by
  decide

/-- C9 (amended): the Cover Resolver is pure and total; for every nonzero
numeric identifier it returns the cover URL built from that identifier and
the size token, and for a missing or zero identifier it returns the
deterministic identifier-0 sentinel URL of the image provider. -/
theorem coverUrl_contract (n : Int) (size : String) :
    (n ≠ 0 → coverUrl (some n) size =
      "https://covers.openlibrary.org/b/id/" ++ toString n ++ "-" ++ size ++ ".jpg") ∧
    coverUrl none size = "https://covers.openlibrary.org/b/id/0-" ++ size ++ ".jpg" ∧
    coverUrl (some 0) size = "https://covers.openlibrary.org/b/id/0-" ++ size ++ ".jpg" := by
  refine ⟨fun h => ?_, by simp [coverUrl, jsTruthyInt], by simp [coverUrl, jsTruthyInt]⟩
  simp [coverUrl, jsTruthyInt, h]

/-- Witness for C9: identifier 5 builds a cover URL, a missing identifier
falls back to the sentinel. -/
theorem coverUrl_contract_witness :
    coverUrl (some 5) "M" = "https://covers.openlibrary.org/b/id/5-M.jpg" ∧
    coverUrl none "S" = "https://covers.openlibrary.org/b/id/0-S.jpg" := by
  have h1 := (coverUrl_contract 5 "M").1 (by decide)
  have h2 := (coverUrl_contract 5 "S").2.1
  exact ⟨by rw [h1]; decide, h2⟩

/-- C10, counterexample.  The escape function does trim, but not every
clause the Query Builder emits passes through it: the free-text value is
pushed verbatim, so a `q` value with leading whitespace is emitted
untrimmed. -/
theorem untrimmed_clause_counterexample :
    clauses { q := some " x" } = [" x"] ∧ jsTrim " x" ≠ " x" := by
  decide

/-- C10 (amended): `esc` coerces a missing value to the empty string and
trims before quoting or percent-encoding — processing a value and
processing its trimmed coercion give identical output, and absent input
yields the empty string rather than a failure.  The trimming consequence
holds for the clauses routed through `esc` (title, author, subject); the
free-text and language clause values are emitted without trimming. -/
theorem esc_coerces_and_trims :
    (∀ v : Option String, esc v = esc (some (jsTrim (v.getD "")))) ∧
    esc none = "" := by
  refine ⟨fun v => ?_, by decide⟩
  simp [esc, jsTrim_idem]

/-- C4: `update(partial)` merges the partial fields over the current
params; the page becomes 1 whenever the partial carries no actual page
value (key absent, or present with an undefined value), and an explicitly
supplied page number is preserved verbatim.  Every other field is
overridden when its key is present in the partial and kept otherwise, so a
non-page parameter change always resets the page to 1. -/
theorem update_merges_and_resets_page (p : Params) (next : Partial) :
    (next.page = none → (update p next).page = some 1) ∧
    (next.page = some none → (update p next).page = some 1) ∧
    (∀ n, next.page = some (some n) → (update p next).page = some n) ∧
    (next.q = none → (update p next).q = p.q) ∧
    (∀ v, next.q = some v → (update p next).q = v) ∧
    (next.title = none → (update p next).title = p.title) ∧
    (∀ v, next.title = some v → (update p next).title = v) ∧
    (next.author = none → (update p next).author = p.author) ∧
    (∀ v, next.author = some v → (update p next).author = v) ∧
    (next.subject = none → (update p next).subject = p.subject) ∧
    (∀ v, next.subject = some v → (update p next).subject = v) ∧
    (next.language = none → (update p next).language = p.language) ∧
    (∀ v, next.language = some v → (update p next).language = v) ∧
    (next.isbn = none → (update p next).isbn = p.isbn) ∧
    (∀ v, next.isbn = some v → (update p next).isbn = v) ∧
    (next.yearStart = none → (update p next).yearStart = p.yearStart) ∧
    (∀ v, next.yearStart = some v → (update p next).yearStart = v) ∧
    (next.yearEnd = none → (update p next).yearEnd = p.yearEnd) ∧
    (∀ v, next.yearEnd = some v → (update p next).yearEnd = v) ∧
    (next.limit = none → (update p next).limit = p.limit) ∧
    (∀ v, next.limit = some v → (update p next).limit = v) ∧
    (next.sort = none → (update p next).sort = p.sort) ∧
    (∀ v, next.sort = some v → (update p next).sort = v) := by
  repeat' constructor
  all_goals first
    | (intro h; simp [update, mergeField, h])
    | (intro v h; simp [update, mergeField, h])

/-- Witness for C4: a title-only update resets the page to 1 and installs
the title; an explicit page update is preserved verbatim. -/
theorem update_merges_and_resets_page_witness :
    (update (initParams appInitial) updA).page = some 1 ∧
    (update (initParams appInitial) updA).title = some "dune" ∧
    (update (initParams appInitial) { page := some (some 5) }).page = some 5 := by
  have h1 := update_merges_and_resets_page (initParams appInitial) updA
  have h2 := update_merges_and_resets_page (initParams appInitial)
    { page := some (some 5) }
  exact ⟨h1.1 rfl, (h1.2.2.2.2.2.2.1) (some "dune") rfl, (h2.2.2.1) 5 rfl⟩

/-- C6: a settled, non-aborted response whose parsed body carries zero
result records (a missing or empty docs array) moves a loading controller
to the empty status — not to error and not to success — and stores the
body with its docs field replaced by an explicit empty array rather than
leaving it absent. -/
theorem zero_docs_to_empty (s : HookState) (g : Nat) (j : OLJson)
    (hs : s.status = .loading) (hf : s.inFlight.contains g = true)
    (ha : s.aborted.contains g = false) (hd : docsMissingOrEmpty j = true) :
    (step s (.responseEv g (.ok j))).status = .empty ∧
    (step s (.responseEv g (.ok j))).data = some { j with docs := some [] } ∧
    (step s (.responseEv g (.ok j))).status ≠ .error ∧
    (step s (.responseEv g (.ok j))).status ≠ .success := by
  have hf2 : g ∈ s.inFlight := by simpa using hf
  have ha2 : g ∉ s.aborted := by simpa using ha
  simp [step, hf2, ha2, applyOutcome, hd]

/-- Witness for C6: the concrete zero-record response moves the loading
state to empty with an explicit empty docs array. -/
theorem zero_docs_to_empty_witness :
    (step loadingState (.responseEv 0 (.ok jsonEmpty))).status = .empty ∧
    (step loadingState (.responseEv 0 (.ok jsonEmpty))).data =
      some { jsonEmpty with docs := some [] } := by
  have h := zero_docs_to_empty loadingState 0 jsonEmpty rfl (by decide) (by decide)
    (by decide)
  exact ⟨h.1, h.2.1⟩

/-- C7: a settled, non-aborted response moves the controller to error
exactly for a non-success HTTP status, a rejected network promise, or a
parse failure; the stored message is never empty and embeds the HTTP
status code in the non-success case; a parsed response never yields error;
and the response of an aborted (superseded) request is dropped without
touching status, data or error. -/
theorem error_classification :
    (∀ (s : HookState) (g c : Nat), s.inFlight.contains g = true →
      s.aborted.contains g = false →
      (step s (.responseEv g (.httpFail c))).status = .error ∧
      (step s (.responseEv g (.httpFail c))).error =
        some ("Request failed: " ++ toString c) ∧
      ("Request failed: " ++ toString c) ≠ "" ∧
      ∃ pre suf, ("Request failed: " ++ toString c) = pre ++ toString c ++ suf) ∧
    (∀ (s : HookState) (g : Nat) (m : String), s.inFlight.contains g = true →
      s.aborted.contains g = false →
      (step s (.responseEv g (.netFail m))).status = .error ∧
      ∃ msg, (step s (.responseEv g (.netFail m))).error = some msg ∧ msg ≠ "") ∧
    (∀ (s : HookState) (g : Nat) (m : String), s.inFlight.contains g = true →
      s.aborted.contains g = false →
      (step s (.responseEv g (.parseFail m))).status = .error ∧
      ∃ msg, (step s (.responseEv g (.parseFail m))).error = some msg ∧ msg ≠ "") ∧
    (∀ (s : HookState) (g : Nat) (j : OLJson), s.inFlight.contains g = true →
      s.aborted.contains g = false →
      (step s (.responseEv g (.ok j))).status ≠ .error) ∧
    (∀ (s : HookState) (g : Nat) (o : Outcome), s.aborted.contains g = true →
      stateTriple (step s (.responseEv g o)) = stateTriple s) := by
  refine ⟨fun s g c hf ha => ?_, fun s g m hf ha => ?_, fun s g m hf ha => ?_,
    fun s g j hf ha => ?_, fun s g o hab => ?_⟩
  · have hf2 : g ∈ s.inFlight := by simpa using hf
    have ha2 : g ∉ s.aborted := by simpa using ha
    refine ⟨by simp [step, hf2, ha2, applyOutcome],
      by simp [step, hf2, ha2, applyOutcome],
      ?_, "Request failed: ", "", by simp⟩
    intro h
    have hl := congrArg String.length h
    rw [String.length_append] at hl
    rw [show ("Request failed: ").length = 16 from by decide,
        show ("" : String).length = 0 from rfl] at hl
    omega
  · have hf2 : g ∈ s.inFlight := by simpa using hf
    have ha2 : g ∉ s.aborted := by simpa using ha
    refine ⟨by simp [step, hf2, ha2, applyOutcome],
      if m == "" then "Network error" else m,
      by simp [step, hf2, ha2, applyOutcome], ?_⟩
    cases hm : (m == "") with
    | true => simp
    | false => simpa [hm] using beq_eq_false_iff_ne.mp hm
  · have hf2 : g ∈ s.inFlight := by simpa using hf
    have ha2 : g ∉ s.aborted := by simpa using ha
    refine ⟨by simp [step, hf2, ha2, applyOutcome],
      if m == "" then "Network error" else m,
      by simp [step, hf2, ha2, applyOutcome], ?_⟩
    cases hm : (m == "") with
    | true => simp
    | false => simpa [hm] using beq_eq_false_iff_ne.mp hm
  · have hf2 : g ∈ s.inFlight := by simpa using hf
    have ha2 : g ∉ s.aborted := by simpa using ha
    have hstep : step s (.responseEv g (.ok j)) =
        applyOutcome (.ok j) { s with inFlight := s.inFlight.erase g } := by
      simp [step, hf2, ha2]
    rw [hstep]
    simp only [applyOutcome]
    split <;> simp
  · have hab2 : g ∈ s.aborted := by simpa using hab
    by_cases hfm : g ∈ s.inFlight
    · simp [step, hfm, hab2, stateTriple]
    · simp [step, hfm, stateTriple]

/-- Witness for C7: a 404 yields an error with the code embedded, a thrown
network error yields a non-empty error, a parsed response does not error,
and an aborted response leaves the state untouched. -/
theorem error_classification_witness :
    (step loadingState (.responseEv 0 (.httpFail 404))).status = .error ∧
    (step loadingState (.responseEv 0 (.httpFail 404))).error =
      some "Request failed: 404" ∧
    (step loadingState (.responseEv 0 (.netFail "boom"))).status = .error ∧
    (step loadingState (.responseEv 0 (.ok jsonA))).status ≠ .error ∧
    stateTriple (step abortedState (.responseEv 0 (.httpFail 500))) =
      stateTriple abortedState := by
  have h := error_classification
  have h404 := h.1 loadingState 0 404 (by decide) (by decide)
  refine ⟨h404.1, ?_, (h.2.1 loadingState 0 "boom" (by decide) (by decide)).1,
    h.2.2.2.1 loadingState 0 jsonA (by decide) (by decide),
    h.2.2.2.2 abortedState 0 _ (by decide)⟩
  rw [h404.2.1]
  decide

/-- C8: the Next control is disabled exactly when the current page times
the page size 24 reaches the capped total min(numFound, 1000); with
numFound 1000 this refuses exactly the requests for pages beyond
floor(1000/24) + 1 = 42. -/
theorem pagination_next_cap (j : OLJson) (page : Nat) :
    (nextDisabled (some j) page = true ↔ page * 24 ≥ min j.numFound 1000) ∧
    (j.numFound = 1000 →
      (nextDisabled (some j) page = true ↔ page + 1 > 1000 / 24 + 1)) := by
  constructor
  · simp [nextDisabled, LIMIT, totalOf]
  · intro h
    simp only [nextDisabled, LIMIT, totalOf, h, decide_eq_true_eq]
    omega

/-- Witness for C8: with numFound 1000 the Next control is disabled on
page 42 (whose successor is beyond floor(1000/24) + 1) and enabled on
page 41. -/
theorem pagination_next_cap_witness :
    nextDisabled (some jsonCap) 42 = true ∧
    nextDisabled (some jsonCap) 41 = false := by
  constructor
  · exact ((pagination_next_cap jsonCap 42).2 rfl).mpr (by norm_num)
  · have h := (pagination_next_cap jsonCap 41).1
    refine Bool.eq_false_iff.mpr fun hc => ?_
    have := h.mp hc
    simp [jsonCap] at this

/-- Reduction of filterMap over a conditionally present head. -/
theorem filterMap_if_cons (b : Bool) (x : α) (l : List (Option α)) :
    List.filterMap id ((if b then some x else none) :: l) =
      (if b then [x] else []) ++ List.filterMap id l := by
  cases b <;> simp

/-- The spec-ordered clause list coincides with the parts list the code
builds. -/
theorem clauses_eq_spec (p : Params) :
    (specClauseList p).filterMap id = clauses p := by
  simp only [specClauseList, filterMap_if_cons, List.filterMap_nil, List.append_nil,
    List.append_assoc, clauses]

/-- C2: the Query Builder equals, input for input, the URL assembled from
the spec-fixed clause order (title, author, subject, language, year range,
free text) followed by the page, limit, sort and fields parameters; being
a pure total function of its input, it is deterministic — equal inputs
give byte-identical output — and cannot throw or perform I/O. -/
theorem buildUrl_spec_order :
    (∀ p : Params, buildUrl p = buildUrlSpec p) ∧
    (∀ p₁ p₂ : Params, p₁ = p₂ → buildUrl p₁ = buildUrl p₂) := by
  refine ⟨fun p => ?_, fun p₁ p₂ h => by rw [h]⟩
  simp only [buildUrl, buildUrlSpec, queryPairs, clauses_eq_spec]

/-- Witness for C2: the mounted params produce the spec-ordered URL, and a
repeated run is byte-identical. -/
theorem buildUrl_spec_order_witness :
    buildUrl (initParams appInitial) = buildUrlSpec (initParams appInitial) ∧
    buildUrl (update (initParams appInitial) updA) =
      buildUrl (update (initParams appInitial) updA) :=
  ⟨buildUrl_spec_order.1 _, buildUrl_spec_order.2 _ _ rfl⟩

/-- C5, code-bug exhibit.  When every query-bearing field is cleared the
effect does reset to idle and clear data and error without issuing a
request, but it returns before touching the abort ref, so the request
already in flight is NOT cancelled: it stays in flight, its controller is
never added to the aborted set, and when its response later settles it is
applied, replacing idle with success and stale data. -/
theorem emptyQuery_uncancelled_request :
    (run appMount [.updateEv updA, .timerFireEv, .updateEv updEmpty]).status = .idle ∧
    (run appMount [.updateEv updA, .timerFireEv, .updateEv updEmpty]).data = none ∧
    (run appMount [.updateEv updA, .timerFireEv, .updateEv updEmpty]).error = none ∧
    (run appMount [.updateEv updA, .timerFireEv, .updateEv updEmpty]).inFlight = [0] ∧
    (run appMount [.updateEv updA, .timerFireEv, .updateEv updEmpty]).aborted = [] ∧
    (run appMount [.updateEv updA, .timerFireEv, .updateEv updEmpty,
        .responseEv 0 (.ok jsonA)]).status = .success ∧
    (run appMount [.updateEv updA, .timerFireEv, .updateEv updEmpty,
        .responseEv 0 (.ok jsonA)]).data = some jsonA := by
  decide

/-- Bounded ids are never found by a contains test above the bound. -/
theorem contains_eq_false_of_forall_lt (l : List Nat) (x : Nat)
    (h : ∀ g ∈ l, g < x) : l.contains x = false := by
  by_cases hc : x ∈ l
  · exact absurd (h x hc) (lt_irrefl x)
  · simpa using hc

/-- The visible triple after applying an outcome depends only on the
outcome and the visible triple before it. -/
theorem applyOutcome_triple_ext (o : Outcome) (s t : HookState)
    (hd : s.data = t.data) (he : s.error = t.error) (hst : s.status = t.status) :
    stateTriple (applyOutcome o s) = stateTriple (applyOutcome o t) := by
  cases o with
  | ok j =>
    by_cases hc : docsMissingOrEmpty j = true <;>
      simp [applyOutcome, stateTriple, hc, hd, he, hst]
  | httpFail c => simp [applyOutcome, stateTriple, hd]
  | netFail m => simp [applyOutcome, stateTriple, hd]
  | parseFail m => simp [applyOutcome, stateTriple, hd]

/-- Closed form of the effect body in the has-query case. -/
theorem runEffect_hasQuery (s : HookState) (h : hasQuery s.params = true) :
    runEffect s =
      { params := s.params, status := .loading, data := s.data, error := none,
        abortRef := some s.nextId, aborted := (abortCurrent s).aborted,
        pendingTimer := some s.nextId, inFlight := s.inFlight,
        nextId := s.nextId + 1 } := by
  cases hr : s.abortRef <;> simp [runEffect, h, abortCurrent, hr]

/-- Aborting the current controller keeps every recorded id below the
fresh-id counter. -/
theorem abortCurrent_aborted_lt (s : HookState) (x : Nat)
    (hwa : ∀ g ∈ s.aborted, g < x) (hwr : optLt s.abortRef x = true) :
    ∀ g ∈ (abortCurrent s).aborted, g < x := by
  cases hr : s.abortRef with
  | none => simpa [abortCurrent, hr] using hwa
  | some g0 =>
    intro g hg
    simp only [abortCurrent, hr, List.mem_cons] at hg
    rcases hg with rfl | hg
    · simpa [optLt, hr] using hwr
    · exact hwa g hg

/-- A parameter update that changes the memoized URL re-runs the effect on
the merged params. -/
theorem step_update_changed (s : HookState) (next : Partial)
    (hu : buildUrl (update s.params next) ≠ buildUrl s.params) :
    step s (.updateEv next) = runEffect { s with params := update s.params next } := by
  simp [step, beq_eq_false_iff_ne.mpr hu]

/-- A scheduled debounce timer firing starts the fetch of its request. -/
theorem step_timer_some (s : HookState) (g : Nat) (h : s.pendingTimer = some g) :
    step s .timerFireEv = { s with pendingTimer := none, inFlight := g :: s.inFlight } := by
  simp [step, h]

/-- The response of an aborted request never changes the visible triple. -/
theorem step_response_aborted_triple (s : HookState) (g : Nat) (o : Outcome)
    (h : g ∈ s.aborted) :
    stateTriple (step s (.responseEv g o)) = stateTriple s := by
  by_cases hf : g ∈ s.inFlight <;> simp [step, hf, h, stateTriple]

/-- A settled response of a live, non-aborted request is applied. -/
theorem step_response_applied (s : HookState) (g : Nat) (o : Outcome)
    (hf : g ∈ s.inFlight) (ha : g ∉ s.aborted) :
    step s (.responseEv g o) =
      applyOutcome o { s with inFlight := s.inFlight.erase g } := by
  simp [step, hf, ha]

/-- A settled response of an aborted request only leaves the in-flight
set. -/
theorem step_response_dropped (s : HookState) (g : Nat) (o : Outcome)
    (hf : g ∈ s.inFlight) (ha : g ∈ s.aborted) :
    step s (.responseEv g o) = { s with inFlight := s.inFlight.erase g } := by
  simp [step, hf, ha]

/-- Applying an outcome never changes the aborted set. -/
theorem applyOutcome_aborted (o : Outcome) (s : HookState) :
    (applyOutcome o s).aborted = s.aborted := by
  cases o with
  | ok j => by_cases hc : docsMissingOrEmpty j = true <;> simp [applyOutcome, hc]
  | httpFail c => simp [applyOutcome]
  | netFail m => simp [applyOutcome]
  | parseFail m => simp [applyOutcome]

/-- C1: issuing update B while update A's request is pending aborts A's
controller already when B's effect runs (before B's fetch is initiated),
and A's response is never applied afterwards: it leaves the visible state
untouched, and under either arrival order the final status, data and error
are exactly those produced by B's response alone. -/
theorem stale_response_never_applied (s0 : HookState) (a b : Partial)
    (oA oB : Outcome) (hwf : WF s0)
    (hqa : hasQuery (update s0.params a) = true)
    (hua : buildUrl (update s0.params a) ≠ buildUrl s0.params)
    (hqb : hasQuery (update (update s0.params a) b) = true)
    (hub : buildUrl (update (update s0.params a) b) ≠ buildUrl (update s0.params a)) :
    (run s0 [.updateEv a, .timerFireEv, .updateEv b]).aborted.contains s0.nextId
        = true ∧
    stateTriple (step (run s0 [.updateEv a, .timerFireEv, .updateEv b, .timerFireEv])
        (.responseEv s0.nextId oA)) =
      stateTriple (run s0 [.updateEv a, .timerFireEv, .updateEv b, .timerFireEv]) ∧
    stateTriple (run s0 [.updateEv a, .timerFireEv, .updateEv b, .timerFireEv,
        .responseEv s0.nextId oA, .responseEv (s0.nextId + 1) oB]) =
      stateTriple (applyOutcome oB
        (run s0 [.updateEv a, .timerFireEv, .updateEv b, .timerFireEv])) ∧
    stateTriple (run s0 [.updateEv a, .timerFireEv, .updateEv b, .timerFireEv,
        .responseEv (s0.nextId + 1) oB, .responseEv s0.nextId oA]) =
      stateTriple (applyOutcome oB
        (run s0 [.updateEv a, .timerFireEv, .updateEv b, .timerFireEv])) := by
  obtain ⟨hwa, hwi, hwr, hwt⟩ := hwf
  set n := s0.nextId with hn
  simp only [run, List.foldl_cons, List.foldl_nil]
  set pa := update s0.params a with hpa
  set pb := update (update s0.params a) b with hpb
  set A1 := (abortCurrent { s0 with params := pa }).aborted with hA1def
  have hA1 : ∀ g ∈ A1, g < n := by
    rw [hA1def]
    exact abortCurrent_aborted_lt _ n hwa hwr
  have e1 : step s0 (.updateEv a) =
      ⟨pa, .loading, s0.data, none, some n, A1, some n, s0.inFlight, n + 1⟩ := by
    rw [step_update_changed s0 a hua, runEffect_hasQuery _ hqa]
  have e2 : step (step s0 (.updateEv a)) .timerFireEv =
      ⟨pa, .loading, s0.data, none, some n, A1, none, n :: s0.inFlight, n + 1⟩ := by
    rw [e1, step_timer_some _ n rfl]
  have e3 : step (step (step s0 (.updateEv a)) .timerFireEv) (.updateEv b) =
      ⟨pb, .loading, s0.data, none, some (n + 1), n :: A1, some (n + 1),
        n :: s0.inFlight, n + 2⟩ := by
    rw [e2, step_update_changed _ b (by exact hub), runEffect_hasQuery _ (by exact hqb)]
    rfl
  have e4 : step (step (step (step s0 (.updateEv a)) .timerFireEv) (.updateEv b))
        .timerFireEv =
      ⟨pb, .loading, s0.data, none, some (n + 1), n :: A1, none,
        (n + 1) :: n :: s0.inFlight, n + 2⟩ := by
    rw [e3, step_timer_some _ (n + 1) rfl]
  have habA : n ∈ (n :: A1) := List.mem_cons_self n A1
  have hnbB : (n + 1) ∉ (n :: A1) := by
    intro hm
    rcases List.mem_cons.mp hm with heq | hm
    · exact Nat.succ_ne_self n heq
    · exact absurd (hA1 _ hm) (by omega)
  have heraseA : ((n + 1) :: n :: s0.inFlight).erase n = (n + 1) :: s0.inFlight := by
    rw [List.erase_cons, List.erase_cons]
    rw [if_neg (by simp), if_pos (by simp)]
  refine ⟨?_, ?_, ?_, ?_⟩
  · rw [e3]
    simp
  · rw [e4]
    exact step_response_aborted_triple _ n oA habA
  · rw [e4]
    rw [step_response_dropped _ n oA (by simp) (by exact habA)]
    have e5 : ({(⟨pb, .loading, s0.data, none, some (n + 1), n :: A1, none,
        (n + 1) :: n :: s0.inFlight, n + 2⟩ : HookState) with
          inFlight := ((n + 1) :: n :: s0.inFlight).erase n } : HookState) =
        ⟨pb, .loading, s0.data, none, some (n + 1), n :: A1, none,
          (n + 1) :: s0.inFlight, n + 2⟩ := by
      rw [heraseA]
    rw [e5]
    rw [step_response_applied _ (n + 1) oB (by simp) (by exact hnbB)]
    exact applyOutcome_triple_ext oB _ _ rfl rfl rfl
  · rw [e4]
    rw [step_response_applied _ (n + 1) oB (by simp) (by exact hnbB)]
    have hab : n ∈ (applyOutcome oB
        ({(⟨pb, .loading, s0.data, none, some (n + 1), n :: A1, none,
          (n + 1) :: n :: s0.inFlight, n + 2⟩ : HookState) with
            inFlight := ((n + 1) :: n :: s0.inFlight).erase (n + 1)})).aborted := by
      rw [applyOutcome_aborted]
      exact habA
    rw [step_response_aborted_triple _ n oA hab]
    exact applyOutcome_triple_ext oB _ _ rfl rfl rfl

/-- Witness for C1: from the mounted App, update A (title dune) then
update B (title hobbit) while A is in flight; the final visible state is
exactly the one produced by B's response, and A's controller is aborted. -/
theorem stale_response_never_applied_witness :
    stateTriple (run appMount [.updateEv updA, .timerFireEv, .updateEv updB,
        .timerFireEv, .responseEv appMount.nextId (.ok jsonA),
        .responseEv (appMount.nextId + 1) (.ok jsonB)]) =
      stateTriple (applyOutcome (.ok jsonB)
        (run appMount [.updateEv updA, .timerFireEv, .updateEv updB, .timerFireEv])) ∧
    (run appMount [.updateEv updA, .timerFireEv, .updateEv updB]).aborted.contains
        appMount.nextId = true := by
  have h := stale_response_never_applied appMount updA updB (.ok jsonA) (.ok jsonB)
    (by decide) (by decide) (by decide) (by decide) (by decide)
  exact ⟨h.2.2.1, h.1⟩

end BookFinder
